import Mathlib

/-!
Verification of `src/add_files_to_project.py`.

The script is a thin command-line wrapper around an external project-manifest
library: it reads `sys.argv[1]` as the manifest path and `sys.argv[2:]` as file
paths, loads the manifest, calls `add_file` for each path in order, and saves
the manifest back to the same path.

The external library (`pbxproj`) is not part of this repository, so its three
operations `load`, `add_file`, `save` are modelled from the spec; the script's
own control flow is embedded faithfully from the source.
-/

namespace AddFilesToProject

/-- Modelled from the spec: a manifest is, observably, an ordered sequence of
file entries, each referencing one path ("File path list: an ordered sequence
of strings ...; each is added independently and unconditionally as a new entry
in the manifest"). -/
abbrev Manifest := List String

/-- Modelled from the spec: the disk, as far as the program observes it, maps
each path to the manifest stored there, or `none` when the path does not
reference an existing, parseable manifest ("fails with LoadError if the
manifest path does not exist or is not parseable"). -/
abbrev FS := String → Option Manifest

/-- Modelled from the spec: `ManifestHandle.add_file(path)` "registers a new
file reference in the manifest's default location/group", with no
deduplication or existence check. -/
def add_file (m : Manifest) (p : String) : Manifest := m ++ [p]

/-- The error outcomes an invocation can surface: an argument-indexing error
from `sys.argv[1]`, the library's `LoadError` and `SaveError`, and an error
raised by an `add_file` call (the script installs no handler, so any of these
propagates and terminates the process). -/
inductive Err
  | IndexError
  | LoadError
  | AddError
  | SaveError
deriving DecidableEq, Repr

/-- Observable calls the script makes into the manifest library, in the order
it makes them. -/
inductive Event
  | load (path : String)
  | addFile (path : String)
  | save (path : String)
deriving DecidableEq, Repr

/-- The observable outcome of one invocation: whether it succeeded or which
error terminated it, the resulting state of the disk, and the trace of library
calls that were made (attempted calls included). -/
structure Outcome where
  result : Except Err Unit
  fs : FS
  events : List Event

/-- The `for file_path in file_paths: project.add_file(file_path)` loop of the
source, parameterised by the library's `add_file` behaviour `af` (an
exception in `af` aborts the loop, since the script has no handler). Returns
the final manifest or the failure, with the trace of `add_file` calls made. -/
def addLoop (af : Manifest → String → Except Unit Manifest) :
    Manifest → List String → Except Unit Manifest × List Event
  | project, [] => (Except.ok project, [])
  | project, p :: ps =>
    match af project p with
    | Except.error e => (Except.error e, [Event.addFile p])
    | Except.ok project' =>
      let rest := addLoop af project' ps
      (rest.1, Event.addFile p :: rest.2)

/-- The whole script, embedded from `src/add_files_to_project.py`, with the
library's `add_file` behaviour passed in as `af`:
`project_path = sys.argv[1]` (IndexError when absent),
`file_paths = sys.argv[2:]`,
`project = XcodeProject.load(project_path)` (LoadError when the path holds no
parseable manifest), the `add_file` loop, and `project.save()` (SaveError when
the destination is not writable, otherwise overwrite the original path). -/
def runWith (af : Manifest → String → Except Unit Manifest)
    (argv : List String) (fs : FS) (writable : String → Bool) : Outcome :=
  match argv with
  | _prog :: project_path :: file_paths =>
    match fs project_path with
    | none => ⟨Except.error Err.LoadError, fs, [Event.load project_path]⟩
    | some project =>
      match addLoop af project file_paths with
      | (Except.error _, evs) =>
        ⟨Except.error Err.AddError, fs, Event.load project_path :: evs⟩
      | (Except.ok project', evs) =>
        if writable project_path then
          ⟨Except.ok (),
           fun q => if q = project_path then some project' else fs q,
           Event.load project_path :: (evs ++ [Event.save project_path])⟩
        else
          ⟨Except.error Err.SaveError, fs,
           Event.load project_path :: (evs ++ [Event.save project_path])⟩
  | _ => ⟨Except.error Err.IndexError, fs, []⟩

/-- The script with the library's actual `add_file`, which the spec models as
total ("non-existent or duplicate paths are accepted silently"). -/
def run (argv : List String) (fs : FS) (writable : String → Bool) : Outcome :=
  runWith (fun m p => Except.ok (add_file m p)) argv fs writable

/-- The process exit status surfaced to the caller: 0 when the script runs to
completion, 1 (Python's status for an uncaught exception) otherwise. -/
def exitCode (o : Outcome) : Nat :=
  match o.result with
  | Except.ok _ => 0
  | Except.error _ => 1

/-- With the library's total `add_file`, the loop never fails: it appends the
input paths to the manifest in input order and makes one `add_file` call per
path, in order. -/
lemma addLoop_ok (project : Manifest) (fps : List String) :
    addLoop (fun m p => Except.ok (add_file m p)) project fps
      = (Except.ok (project ++ fps), fps.map Event.addFile) := by
  induction fps generalizing project with
  | nil => simp [addLoop]
  | cons p ps ih =>
    simp only [addLoop, ih, List.map_cons]
    simp [add_file, List.append_assoc]

/-- Evaluation of a run whose load succeeds. -/
lemma run_eq_of_load (prog pp : String) (fps : List String) (fs : FS)
    (w : String → Bool) (m : Manifest) (hm : fs pp = some m) :
    run (prog :: pp :: fps) fs w =
      if w pp then
        ⟨Except.ok (), fun q => if q = pp then some (m ++ fps) else fs q,
         Event.load pp :: (fps.map Event.addFile ++ [Event.save pp])⟩
      else
        ⟨Except.error Err.SaveError, fs,
         Event.load pp :: (fps.map Event.addFile ++ [Event.save pp])⟩ := by
  simp only [run, runWith, hm, addLoop_ok]

/-- Evaluation of a fully successful run. -/
lemma run_eq_ok (prog pp : String) (fps : List String) (fs : FS)
    (w : String → Bool) (m : Manifest) (hm : fs pp = some m)
    (hw : w pp = true) :
    run (prog :: pp :: fps) fs w =
      ⟨Except.ok (), fun q => if q = pp then some (m ++ fps) else fs q,
       Event.load pp :: (fps.map Event.addFile ++ [Event.save pp])⟩ := by
  rw [run_eq_of_load prog pp fps fs w m hm, if_pos hw]

/-- Evaluation of a run whose load succeeds but whose save fails. -/
lemma run_eq_savefail (prog pp : String) (fps : List String) (fs : FS)
    (w : String → Bool) (m : Manifest) (hm : fs pp = some m)
    (hw : w pp = false) :
    run (prog :: pp :: fps) fs w =
      ⟨Except.error Err.SaveError, fs,
       Event.load pp :: (fps.map Event.addFile ++ [Event.save pp])⟩ := by
  rw [run_eq_of_load prog pp fps fs w m hm, if_neg]
  simp [hw]

/-- The manifest stored at the loaded path after a successful run is the
loaded manifest with the input paths appended in input order. -/
lemma run_fs_pp (prog pp : String) (fps : List String) (fs : FS)
    (w : String → Bool) (m : Manifest) (hm : fs pp = some m)
    (hw : w pp = true) :
    (run (prog :: pp :: fps) fs w).fs pp = some (m ++ fps) := by
  rw [run_eq_ok prog pp fps fs w m hm hw]
  simp

/-- Every event the `add_file` loop emits is an `addFile` call. -/
lemma addLoop_events_addFile (af : Manifest → String → Except Unit Manifest)
    (m : Manifest) (fps : List String) :
    ∀ ev ∈ (addLoop af m fps).2, ∃ p, ev = Event.addFile p := by
  induction fps generalizing m with
  | nil => simp [addLoop]
  | cons p ps ih =>
    simp only [addLoop]
    cases haf : af m p with
    | error e => simp
    | ok m' =>
      intro ev hev
      rcases List.mem_cons.mp hev with h | h
      · exact ⟨p, h⟩
      · exact ih m' ev h

/-- A concrete filesystem used to instantiate the theorems: an empty manifest
stored at path `proj.manifest`, nothing anywhere else. -/
def fs0 : FS := fun q => if q = "proj.manifest" then some [] else none

/-- C1: for every valid manifest and every list of N file-path arguments, a
successful run leaves at the manifest path the loaded manifest with exactly
the N input paths appended as entries, each referencing one input path, in
input order (for a single argument, exactly one additional entry). -/
theorem run_adds_all_inputs_in_order (prog pp : String) (fps : List String)
    (fs : FS) (w : String → Bool) (m : Manifest) (hm : fs pp = some m)
    (hw : w pp = true) :
    (run (prog :: pp :: fps) fs w).fs pp = some (m ++ fps)
    ∧ (m ++ fps).length = m.length + fps.length
    ∧ (m ++ fps).drop m.length = fps :=
  ⟨run_fs_pp prog pp fps fs w m hm hw, List.length_append m fps, by simp⟩

/-- Witness for C1 at the spec's own example: empty manifest, arguments
`src/a.c` and `src/b.c`, resulting manifest `[src/a.c, src/b.c]`. -/
theorem run_adds_all_inputs_in_order_witness :
    (run ["prog", "proj.manifest", "src/a.c", "src/b.c"] fs0 (fun _ => true)).fs
        "proj.manifest" = some (([] : Manifest) ++ ["src/a.c", "src/b.c"])
    ∧ (([] : Manifest) ++ ["src/a.c", "src/b.c"]).length
        = ([] : Manifest).length + (["src/a.c", "src/b.c"] : List String).length
    ∧ (([] : Manifest) ++ ["src/a.c", "src/b.c"]).drop ([] : Manifest).length
        = ["src/a.c", "src/b.c"] :=
  run_adds_all_inputs_in_order "prog" "proj.manifest" ["src/a.c", "src/b.c"]
    fs0 (fun _ => true) [] rfl rfl

/-- C2: with zero file-path arguments, the manifest is still loaded and saved
(both events occur), the run succeeds, and the disk is left pointwise
unchanged: an idempotent no-op on the manifest's contents. -/
theorem run_zero_files_noop (prog pp : String) (fs : FS)
    (w : String → Bool) (m : Manifest) (hm : fs pp = some m)
    (hw : w pp = true) :
    (run [prog, pp] fs w).result = Except.ok ()
    ∧ (∀ q, (run [prog, pp] fs w).fs q = fs q)
    ∧ (run [prog, pp] fs w).events = [Event.load pp, Event.save pp] := by
  rw [run_eq_ok prog pp [] fs w m hm hw]
  refine ⟨rfl, fun q => ?_, by simp⟩
  by_cases hq : q = pp <;> simp [hq, hm]

/-- Witness for C2: a run on the empty manifest with no file arguments. -/
theorem run_zero_files_noop_witness :
    (run ["prog", "proj.manifest"] fs0 (fun _ => true)).result = Except.ok ()
    ∧ (∀ q, (run ["prog", "proj.manifest"] fs0 (fun _ => true)).fs q = fs0 q)
    ∧ (run ["prog", "proj.manifest"] fs0 (fun _ => true)).events
        = [Event.load "proj.manifest", Event.save "proj.manifest"] :=
  run_zero_files_noop "prog" "proj.manifest" fs0 (fun _ => true) [] rfl rfl

/-- C3: when the manifest path references no existing, parseable manifest, the
run terminates with `LoadError` and writes nothing: every path on disk,
including the manifest path, is left unchanged. -/
theorem run_load_failure (prog pp : String) (fps : List String) (fs : FS)
    (w : String → Bool) (hm : fs pp = none) :
    (run (prog :: pp :: fps) fs w).result = Except.error Err.LoadError
    ∧ (∀ q, (run (prog :: pp :: fps) fs w).fs q = fs q) := by
  refine ⟨?_, fun q => ?_⟩ <;> simp [run, runWith, hm]

/-- Witness for C3: a run against a path holding no manifest. -/
theorem run_load_failure_witness :
    (run ["prog", "missing.manifest", "src/a.c"] fs0 (fun _ => true)).result
        = Except.error Err.LoadError
    ∧ (∀ q, (run ["prog", "missing.manifest", "src/a.c"] fs0
        (fun _ => true)).fs q = fs0 q) :=
  run_load_failure "prog" "missing.manifest" ["src/a.c"] fs0 (fun _ => true) rfl

/-- C4: adding is unconditional and deduplication-free: passing the same path
twice in one run yields two separate entries for it (its entry count grows by
exactly two), and running the mutator twice with the same path likewise
appends it twice; no duplicate check suppresses an add. -/
theorem run_never_dedups (prog pp p : String) (fs : FS) (w : String → Bool)
    (m : Manifest) (hm : fs pp = some m) (hw : w pp = true) :
    (run (prog :: pp :: [p, p]) fs w).fs pp = some (m ++ [p, p])
    ∧ (m ++ [p, p]).count p = m.count p + 2
    ∧ (run (prog :: pp :: [p]) ((run (prog :: pp :: [p]) fs w).fs) w).fs pp
        = some ((m ++ [p]) ++ [p]) := by
  refine ⟨run_fs_pp prog pp [p, p] fs w m hm hw, by simp [List.count_append], ?_⟩
  exact run_fs_pp prog pp [p] ((run (prog :: pp :: [p]) fs w).fs) w (m ++ [p])
    (run_fs_pp prog pp [p] fs w m hm hw) hw

/-- Witness for C4: duplicating `src/a.c` on the empty manifest. -/
theorem run_never_dedups_witness :
    (run ["prog", "proj.manifest", "src/a.c", "src/a.c"] fs0
        (fun _ => true)).fs "proj.manifest"
      = some (([] : Manifest) ++ ["src/a.c", "src/a.c"])
    ∧ (([] : Manifest) ++ ["src/a.c", "src/a.c"]).count "src/a.c"
        = ([] : Manifest).count "src/a.c" + 2
    ∧ (run ["prog", "proj.manifest", "src/a.c"]
        ((run ["prog", "proj.manifest", "src/a.c"] fs0 (fun _ => true)).fs)
        (fun _ => true)).fs "proj.manifest"
      = some ((([] : Manifest) ++ ["src/a.c"]) ++ ["src/a.c"]) :=
  run_never_dedups "prog" "proj.manifest" "src/a.c" fs0 (fun _ => true) []
    rfl rfl

/-- C5: once the load has succeeded, the save fails with `SaveError` exactly
when the destination is not writable; on success it overwrites the original
manifest path — the same path that was loaded — with the mutated structure,
and no other path is touched (no backup is retained); on failure nothing is
written. -/
theorem run_save_semantics (prog pp : String) (fps : List String) (fs : FS)
    (w : String → Bool) (m : Manifest) (hm : fs pp = some m) :
    ((run (prog :: pp :: fps) fs w).result = Except.error Err.SaveError
        ↔ w pp = false)
    ∧ (w pp = true →
        (run (prog :: pp :: fps) fs w).fs pp = some (m ++ fps)
        ∧ ∀ q, q ≠ pp → (run (prog :: pp :: fps) fs w).fs q = fs q)
    ∧ (w pp = false → ∀ q, (run (prog :: pp :: fps) fs w).fs q = fs q) := by
  cases hw : w pp with
  | false =>
    rw [run_eq_savefail prog pp fps fs w m hm hw]
    exact ⟨by simp [hw], fun h => absurd h (by simp [hw]), fun _ q => rfl⟩
  | true =>
    rw [run_eq_ok prog pp fps fs w m hm hw]
    exact ⟨by simp [hw], fun _ => ⟨by simp, fun q hq => by simp [hq]⟩,
      fun h => absurd h (by simp [hw])⟩

/-- Witness for C5: the empty manifest at a writable destination. -/
theorem run_save_semantics_witness :
    ((run ["prog", "proj.manifest", "src/a.c"] fs0 (fun _ => true)).result
        = Except.error Err.SaveError ↔ (fun _ => true : String → Bool)
        "proj.manifest" = false)
    ∧ ((fun _ => true : String → Bool) "proj.manifest" = true →
        (run ["prog", "proj.manifest", "src/a.c"] fs0 (fun _ => true)).fs
            "proj.manifest" = some (([] : Manifest) ++ ["src/a.c"])
        ∧ ∀ q, q ≠ "proj.manifest" →
            (run ["prog", "proj.manifest", "src/a.c"] fs0
              (fun _ => true)).fs q = fs0 q)
    ∧ ((fun _ => true : String → Bool) "proj.manifest" = false →
        ∀ q, (run ["prog", "proj.manifest", "src/a.c"] fs0
          (fun _ => true)).fs q = fs0 q) :=
  run_save_semantics "prog" "proj.manifest" ["src/a.c"] fs0 (fun _ => true)
    [] rfl

/-- C6: the exit code is 0 exactly when the whole load/add/save sequence
succeeds (manifest present and destination writable); on any error it is
non-zero and the underlying load/save failure is what propagates to the
caller, unhandled. -/
theorem run_exit_code (prog pp : String) (fps : List String) (fs : FS)
    (w : String → Bool) :
    (exitCode (run (prog :: pp :: fps) fs w) = 0
        ↔ (run (prog :: pp :: fps) fs w).result = Except.ok ())
    ∧ (exitCode (run (prog :: pp :: fps) fs w) = 0
        ↔ (fs pp).isSome = true ∧ w pp = true)
    ∧ (fs pp = none →
        (run (prog :: pp :: fps) fs w).result = Except.error Err.LoadError)
    ∧ (∀ m, fs pp = some m → w pp = false →
        (run (prog :: pp :: fps) fs w).result = Except.error Err.SaveError) := by
  cases hm : fs pp with
  | none =>
    have hr : run (prog :: pp :: fps) fs w
        = ⟨Except.error Err.LoadError, fs, [Event.load pp]⟩ := by
      simp [run, runWith, hm]
    rw [hr]
    exact ⟨by simp [exitCode], by simp [exitCode], fun _ => rfl,
      fun m' hm' => Option.noConfusion hm'⟩
  | some m =>
    cases hw : w pp with
    | false =>
      rw [run_eq_savefail prog pp fps fs w m hm hw]
      exact ⟨by simp [exitCode], by simp [exitCode], fun h => Option.noConfusion h,
        fun m' _ _ => rfl⟩
    | true =>
      rw [run_eq_ok prog pp fps fs w m hm hw]
      exact ⟨by simp [exitCode], by simp [exitCode], fun h => Option.noConfusion h,
        fun m' _ h => Bool.noConfusion h⟩

/-- Witness for C6: a successful run on the empty manifest. -/
theorem run_exit_code_witness :
    (exitCode (run ["prog", "proj.manifest", "src/a.c"] fs0 (fun _ => true))
        = 0
      ↔ (run ["prog", "proj.manifest", "src/a.c"] fs0 (fun _ => true)).result
        = Except.ok ())
    ∧ (exitCode (run ["prog", "proj.manifest", "src/a.c"] fs0 (fun _ => true))
        = 0
      ↔ (fs0 "proj.manifest").isSome = true
        ∧ (fun _ => true : String → Bool) "proj.manifest" = true)
    ∧ (fs0 "proj.manifest" = none →
        (run ["prog", "proj.manifest", "src/a.c"] fs0 (fun _ => true)).result
          = Except.error Err.LoadError)
    ∧ (∀ m, fs0 "proj.manifest" = some m →
        (fun _ => true : String → Bool) "proj.manifest" = false →
        (run ["prog", "proj.manifest", "src/a.c"] fs0 (fun _ => true)).result
          = Except.error Err.SaveError) :=
  run_exit_code "prog" "proj.manifest" ["src/a.c"] fs0 (fun _ => true)

/-- C7: every execution is strictly linear: when the load fails the trace is
that single load call and nothing more; when it succeeds the trace is exactly
one load, then one `add_file` call per input path in input order, then exactly
one save — no retries, and the save never occurs before the load completes. -/
theorem run_linear_trace (prog pp : String) (fps : List String) (fs : FS)
    (w : String → Bool) :
    (fs pp = none → (run (prog :: pp :: fps) fs w).events = [Event.load pp])
    ∧ (∀ m, fs pp = some m →
        (run (prog :: pp :: fps) fs w).events
          = Event.load pp :: (fps.map Event.addFile ++ [Event.save pp])) := by
  refine ⟨fun hm => by simp [run, runWith, hm], fun m hm => ?_⟩
  cases hw : w pp with
  | false => rw [run_eq_savefail prog pp fps fs w m hm hw]
  | true => rw [run_eq_ok prog pp fps fs w m hm hw]

/-- Witness for C7: the trace of a successful run with one file argument. -/
theorem run_linear_trace_witness :
    (run ["prog", "proj.manifest", "src/a.c"] fs0 (fun _ => true)).events
      = Event.load "proj.manifest"
        :: ((["src/a.c"] : List String).map Event.addFile
            ++ [Event.save "proj.manifest"]) :=
  (run_linear_trace "prog" "proj.manifest" ["src/a.c"] fs0
    (fun _ => true)).2 [] rfl

/-- C8: invoked with no arguments beyond the program name, the run fails with
the argument-indexing error from `sys.argv[1]` — which is not a `LoadError` —
before any library call: nothing is loaded (the trace is empty) and nothing is
written. -/
theorem run_missing_manifest_arg (prog : String) (fs : FS)
    (w : String → Bool) :
    (run [prog] fs w).result = Except.error Err.IndexError
    ∧ Err.IndexError ≠ Err.LoadError
    ∧ (∀ q, (run [prog] fs w).fs q = fs q)
    ∧ (run [prog] fs w).events = [] :=
  ⟨rfl, by decide, fun q => rfl, rfl⟩

/-- Witness for C8: a bare invocation against the concrete filesystem. -/
theorem run_missing_manifest_arg_witness :
    (run ["prog"] fs0 (fun _ => true)).result = Except.error Err.IndexError
    ∧ Err.IndexError ≠ Err.LoadError
    ∧ (∀ q, (run ["prog"] fs0 (fun _ => true)).fs q = fs0 q)
    ∧ (run ["prog"] fs0 (fun _ => true)).events = [] :=
  run_missing_manifest_arg "prog" fs0 (fun _ => true)

/-- C9: if any `add_file` step raises part-way through the input list, the
run terminates before the save is ever attempted: the result is the add
failure, no save call appears in the trace, and the disk — in particular the
manifest path — is exactly as before the run. -/
theorem runWith_add_failure (af : Manifest → String → Except Unit Manifest)
    (prog pp : String) (fps : List String) (fs : FS) (w : String → Bool)
    (m : Manifest) (hm : fs pp = some m)
    (hfail : (addLoop af m fps).1 = Except.error ()) :
    (runWith af (prog :: pp :: fps) fs w).result = Except.error Err.AddError
    ∧ (∀ q, (runWith af (prog :: pp :: fps) fs w).fs q = fs q)
    ∧ ∀ p, Event.save p ∉ (runWith af (prog :: pp :: fps) fs w).events := by
  obtain ⟨evs, hevs⟩ : ∃ evs, addLoop af m fps = (Except.error (), evs) :=
    ⟨(addLoop af m fps).2, by rw [← hfail]⟩
  simp only [runWith, hm, hevs]
  refine ⟨trivial, fun _ => trivial, fun p hmem => ?_⟩
  rcases List.mem_cons.mp hmem with h | h
  · exact Event.noConfusion h
  · obtain ⟨p', hp'⟩ := addLoop_events_addFile af m fps (Event.save p)
      (by rw [hevs]; exact h)
    exact Event.noConfusion hp'

/-- Witness for C9: an `add_file` behaviour that always raises, one file
argument, the empty manifest. -/
theorem runWith_add_failure_witness :
    (runWith (fun _ _ => Except.error ())
        ["prog", "proj.manifest", "src/a.c"] fs0 (fun _ => true)).result
      = Except.error Err.AddError
    ∧ (∀ q, (runWith (fun _ _ => Except.error ())
        ["prog", "proj.manifest", "src/a.c"] fs0 (fun _ => true)).fs q = fs0 q)
    ∧ ∀ p, Event.save p ∉ (runWith (fun _ _ => Except.error ())
        ["prog", "proj.manifest", "src/a.c"] fs0 (fun _ => true)).events :=
  runWith_add_failure (fun _ _ => Except.error ()) "prog" "proj.manifest"
    ["src/a.c"] fs0 (fun _ => true) [] rfl rfl

/-- C10: the program is deterministic: with the library's load, `add_file`
and save modelled as functions of their inputs, two runs with the same
argument list, the same initial disk state, the same writability and the same
`add_file` behaviour produce identical outcomes, in particular the identical
saved manifest. -/
theorem run_deterministic (af1 af2 : Manifest → String → Except Unit Manifest)
    (argv1 argv2 : List String) (fs1 fs2 : FS) (w1 w2 : String → Bool)
    (haf : af1 = af2) (ha : argv1 = argv2) (hfs : fs1 = fs2) (hw : w1 = w2) :
    runWith af1 argv1 fs1 w1 = runWith af2 argv2 fs2 w2 := by
  subst haf ha hfs hw
  rfl

/-- Witness for C10: two syntactically identical runs coincide. -/
theorem run_deterministic_witness :
    runWith (fun m p => Except.ok (add_file m p))
        ["prog", "proj.manifest", "src/a.c"] fs0 (fun _ => true)
      = runWith (fun m p => Except.ok (add_file m p))
        ["prog", "proj.manifest", "src/a.c"] fs0 (fun _ => true) :=
  run_deterministic (fun m p => Except.ok (add_file m p))
    (fun m p => Except.ok (add_file m p))
    ["prog", "proj.manifest", "src/a.c"] ["prog", "proj.manifest", "src/a.c"]
    fs0 fs0 (fun _ => true) (fun _ => true) rfl rfl rfl rfl

end AddFilesToProject
